import Mathlib

/-!
Verification of the chat-relay server's session/room registry and
message-dispatch engine.

The Python source keeps several iterations of the same design; the
definitions below embed the two that the specification's claims cite:

* `ServerState`, `MessageHandler` and `ChatServer` embed
  `src/src/server_state.py`, `src/src/handlers.py` and `src/src/server.py`
  (sessions keyed by username, rooms hold username sets, the default room
  is called "default");
* the `Server` namespace embeds `server.py` (clients keyed by websocket,
  rooms hold websocket sets, the default room is called "general").

Python dictionaries are embedded as association lists with
first-occurrence lookup, Python sets as `Finset`, websockets as opaque
`Nat` handles.  The `async` locking discipline makes every operation a
serialized atomic step, so each method becomes a pure state-transformer;
messages emitted to websockets during an operation are collected into an
explicit send list.  Python truthiness on strings (`if not s`) is embedded
as the test against `none` / the empty string.
-/

/-- Lookup in an association list (Python `dict.get`): the value of the
first pair whose key matches, if any. -/
def alookup {α β : Type} [DecidableEq α] (k : α) : List (α × β) → Option β
  | [] => none
  | (k', v) :: rest => if k' = k then some v else alookup k rest

/-- In-place modification of the value stored at a key (Python mutation of
the object held in a dict, e.g. `d[k].field = x`): rewrites the first pair
whose key matches and leaves everything else alone. -/
def aupdate {α β : Type} [DecidableEq α] (k : α) (f : β → β) : List (α × β) → List (α × β)
  | [] => []
  | (k', v) :: rest => if k' = k then (k', f v) :: rest else (k', v) :: aupdate k f rest

/-- Store a value at a key (Python `d[k] = v`): overwrite the existing
entry when present, append a fresh entry otherwise. -/
def aset {α β : Type} [DecidableEq α] (k : α) (v : β) (l : List (α × β)) : List (α × β) :=
  if (alookup k l).isSome then aupdate k (fun _ => v) l else l ++ [(k, v)]

/-- Remove a key (Python `del d[k]`): drops every pair whose key matches. -/
def aerase {α β : Type} [DecidableEq α] (k : α) : List (α × β) → List (α × β)
  | [] => []
  | (k', v) :: rest => if k' = k then aerase k rest else (k', v) :: aerase k rest

theorem alookup_append {α β : Type} [DecidableEq α] (k : α) (l₁ l₂ : List (α × β))
    (h : alookup k l₁ = none) : alookup k (l₁ ++ l₂) = alookup k l₂ := by
  induction l₁ with
  | nil => rfl
  | cons p rest ih =>
    obtain ⟨k', v⟩ := p
    by_cases hk : k' = k
    · simp [alookup, hk] at h
    · simp only [alookup, hk, if_false, List.cons_append] at h ⊢
      exact ih h

theorem alookup_aupdate_self {α β : Type} [DecidableEq α] (k : α) (f : β → β)
    (l : List (α × β)) : alookup k (aupdate k f l) = (alookup k l).map f := by
  induction l with
  | nil => rfl
  | cons p rest ih =>
    obtain ⟨k', v⟩ := p
    by_cases hk : k' = k
    · simp [alookup, aupdate, hk]
    · simp [alookup, aupdate, hk, ih]

theorem alookup_aupdate_ne {α β : Type} [DecidableEq α] {k k' : α} (f : β → β)
    (l : List (α × β)) (h : k ≠ k') : alookup k (aupdate k' f l) = alookup k l := by
  induction l with
  | nil => rfl
  | cons p rest ih =>
    obtain ⟨k₀, v⟩ := p
    by_cases hk : k₀ = k'
    · subst hk
      simp [alookup, aupdate, Ne.symm h]
    · by_cases hk₂ : k₀ = k <;> simp [alookup, aupdate, hk, hk₂, h, ih]

theorem alookup_aset_self {α β : Type} [DecidableEq α] (k : α) (v : β)
    (l : List (α × β)) : alookup k (aset k v l) = some v := by
  unfold aset
  cases h : alookup k l with
  | none =>
    simp only [h, Option.isSome_none, Bool.false_eq_true, if_false]
    rw [alookup_append k l _ h]
    simp [alookup]
  | some w =>
    simp only [h, Option.isSome_some, if_true]
    rw [alookup_aupdate_self, h]
    rfl

theorem alookup_aset_ne {α β : Type} [DecidableEq α] {k k' : α} (v : β)
    (l : List (α × β)) (h : k ≠ k') : alookup k (aset k' v l) = alookup k l := by
  unfold aset
  by_cases hs : (alookup k' l).isSome
  · simp only [hs, if_true]
    exact alookup_aupdate_ne _ l h
  · simp only [hs, if_false]
    induction l with
    | nil => simp [alookup, Ne.symm h]
    | cons p rest ih =>
      obtain ⟨k₀, w⟩ := p
      by_cases hk : k₀ = k
      · simp [alookup, hk]
      · simp only [List.cons_append, alookup, hk, if_false]
        apply ih
        simp only [alookup] at hs
        by_cases hk' : k₀ = k' <;> simp [hk'] at hs ⊢
        exact hs

theorem alookup_aerase_self {α β : Type} [DecidableEq α] (k : α)
    (l : List (α × β)) : alookup k (aerase k l) = none := by
  induction l with
  | nil => rfl
  | cons p rest ih =>
    obtain ⟨k', v⟩ := p
    by_cases hk : k' = k <;> simp [alookup, aerase, hk, ih]

theorem alookup_aerase_ne {α β : Type} [DecidableEq α] {k k' : α}
    (l : List (α × β)) (h : k ≠ k') : alookup k (aerase k' l) = alookup k l := by
  induction l with
  | nil => rfl
  | cons p rest ih =>
    obtain ⟨k₀, v⟩ := p
    by_cases hk : k₀ = k'
    · subst hk
      simp [alookup, aerase, Ne.symm h, ih]
    · by_cases hk₂ : k₀ = k <;> simp [alookup, aerase, hk, hk₂, h, ih]

theorem aupdate_aupdate {α β : Type} [DecidableEq α] (k : α) (f g : β → β)
    (l : List (α × β)) : aupdate k g (aupdate k f l) = aupdate k (fun v => g (f v)) l := by
  induction l with
  | nil => rfl
  | cons p rest ih =>
    obtain ⟨k', v⟩ := p
    by_cases hk : k' = k <;> simp [aupdate, hk, ih]

theorem aupdate_eq_self {α β : Type} [DecidableEq α] (k : α) (f : β → β)
    (l : List (α × β)) (h : ∀ v, alookup k l = some v → f v = v) : aupdate k f l = l := by
  induction l with
  | nil => rfl
  | cons p rest ih =>
    obtain ⟨k', v⟩ := p
    by_cases hk : k' = k
    · simp only [aupdate, hk, if_true]
      have := h v (by simp [alookup, hk])
      rw [this]
    · simp only [aupdate, hk, if_false, List.cons.injEq, true_and]
      apply ih
      intro v' hv'
      exact h v' (by simp [alookup, hk, hv'])

theorem alookup_map_snd {α β γ : Type} [DecidableEq α] (k : α) (g : β → γ)
    (l : List (α × β)) :
    alookup k (l.map (fun p => (p.1, g p.2))) = (alookup k l).map g := by
  induction l with
  | nil => rfl
  | cons p rest ih =>
    obtain ⟨k', v⟩ := p
    by_cases hk : k' = k <;> simp [alookup, hk, ih]

/-- A JSON-ish value as it appears in message `data` payloads. -/
inductive JVal : Type
  | s (v : String)
  | n (v : Nat)
  | arr (v : List String)
  | obj (v : List (String × Nat))
deriving DecidableEq

/-- Outbound wire message (embeds `ProtocolMessage` of `src/src/protocol.py`
and of `server.py`; the auto-filled wall-clock timestamp is external
non-determinism and is omitted). -/
structure ProtocolMessage where
  action : String
  data : List (String × JVal)
deriving DecidableEq

def ProtocolMessage.create_error (error_msg : String) : ProtocolMessage :=
  ⟨"error", [("error", JVal.s error_msg)]⟩

def ProtocolMessage.create_success (info_msg : String) (extra : List (String × JVal)) :
    ProtocolMessage :=
  ⟨"success", ("message", JVal.s info_msg) :: extra⟩

/-- A registered session (the `Client` dataclass of `src/src/server_state.py`). -/
structure Client where
  websocket : Nat
  username : String
  currentRoom : String
deriving DecidableEq

/-- A chat room: its name and its member usernames (the `Room` dataclass of
`src/src/server_state.py`). -/
structure Room where
  name : String
  clients : Finset String
deriving DecidableEq

/-- The server aggregate of `src/src/server_state.py`: rooms by name,
sessions by username, and the websocket-to-username map. -/
structure ServerState where
  rooms : List (String × Room)
  clients : List (String × Client)
  websocket_to_username : List (Nat × String)
deriving DecidableEq

/-- The state built by `ServerState.__init__`: only the default room, no
clients. -/
def ServerState.startState : ServerState :=
  { rooms := [("default", ⟨"default", ∅⟩)], clients := [], websocket_to_username := [] }

/-- Embeds `ServerState.add_client`: atomic check-and-insert of a new session,
which also joins the default room. -/
def ServerState.add_client (st : ServerState) (websocket : Nat) (username : String) :
    ServerState × Bool :=
  if (alookup username st.clients).isSome then (st, false)
  else
    ({ rooms := aupdate "default"
          (fun r => { r with clients := insert username r.clients }) st.rooms,
       clients := aset username ⟨websocket, username, "default"⟩ st.clients,
       websocket_to_username := aset websocket username st.websocket_to_username },
     true)

/-- Embeds `ServerState.remove_client`: tear down the session bound to a websocket,
removing its username from its current room.  Python's `if not username`
also fires on the empty string. -/
def ServerState.remove_client (st : ServerState) (websocket : Nat) :
    ServerState × Option String :=
  match alookup websocket st.websocket_to_username with
  | none => (st, none)
  | some username =>
    if username = "" then (st, none)
    else
      let rooms1 := match alookup username st.clients with
        | none => st.rooms
        | some client =>
            aupdate client.currentRoom
              (fun r => { r with clients := r.clients.erase username }) st.rooms
      ({ rooms := rooms1,
         clients := aerase username st.clients,
         websocket_to_username := aerase websocket st.websocket_to_username },
       some username)

/-- Embeds `ServerState.create_room`: create an empty room unless the name is taken. -/
def ServerState.create_room (st : ServerState) (room_name : String) : ServerState × Bool :=
  if (alookup room_name st.rooms).isSome then (st, false)
  else ({ st with rooms := aset room_name ⟨room_name, ∅⟩ st.rooms }, true)

/-- Embeds `ServerState.join_room`: move a session to an existing room, leaving its
current room. -/
def ServerState.join_room (st : ServerState) (username room_name : String) :
    ServerState × Bool :=
  match alookup username st.clients with
  | none => (st, false)
  | some client =>
    if (alookup room_name st.rooms).isSome then
      ({ st with
         rooms := aupdate room_name
            (fun r => { r with clients := insert username r.clients })
            (aupdate client.currentRoom
              (fun r => { r with clients := r.clients.erase username }) st.rooms),
         clients := aupdate username (fun c => { c with currentRoom := room_name }) st.clients },
       true)
    else (st, false)

/-- Embeds `ServerState.leave_room`: return a session to the default room; a no-op
answering `none` when it is already there. -/
def ServerState.leave_room (st : ServerState) (username : String) :
    ServerState × Option String :=
  match alookup username st.clients with
  | none => (st, none)
  | some client =>
    if client.currentRoom = "default" then (st, none)
    else
      ({ st with
         rooms := aupdate "default"
            (fun r => { r with clients := insert username r.clients })
            (aupdate client.currentRoom
              (fun r => { r with clients := r.clients.erase username }) st.rooms),
         clients := aupdate username (fun c => { c with currentRoom := "default" }) st.clients },
       some client.currentRoom)

/-- Embeds `ServerState.get_room_clients`: a point-in-time copy of a room's member
set, the empty set for an unknown room; the state comes back untouched. -/
def ServerState.get_room_clients (st : ServerState) (room_name : String) :
    ServerState × Finset String :=
  match alookup room_name st.rooms with
  | some room => (st, room.clients)
  | none => (st, ∅)

/-- Embeds `ServerState.get_client_room`: current room of a session, if registered. -/
def ServerState.get_client_room (st : ServerState) (username : String) : Option String :=
  (alookup username st.clients).map (fun c => c.currentRoom)

/-- Embeds `ServerState.get_client_websocket`: websocket of a session, if registered. -/
def ServerState.get_client_websocket (st : ServerState) (username : String) : Option Nat :=
  (alookup username st.clients).map (fun c => c.websocket)

/-- Embeds `ServerState.list_rooms`: snapshot of every room and its member count. -/
def ServerState.list_rooms (st : ServerState) : List (String × Nat) :=
  st.rooms.map (fun p => (p.1, p.2.clients.card))

/-- Embeds `ServerState.get_username_from_websocket`: reverse lookup from websocket
to username. -/
def ServerState.get_username_from_websocket (st : ServerState) (websocket : Nat) :
    Option String :=
  alookup websocket st.websocket_to_username

/-- States reachable from the fresh server state by any sequence of the
mutating `ServerState` operations. -/
inductive Reachable : ServerState → Prop
  | start : Reachable ServerState.startState
  | add_client {st : ServerState} (websocket : Nat) (username : String) :
      Reachable st → Reachable (st.add_client websocket username).1
  | remove_client {st : ServerState} (websocket : Nat) :
      Reachable st → Reachable (st.remove_client websocket).1
  | create_room {st : ServerState} (room_name : String) :
      Reachable st → Reachable (st.create_room room_name).1
  | join_room {st : ServerState} (username room_name : String) :
      Reachable st → Reachable (st.join_room username room_name).1
  | leave_room {st : ServerState} (username : String) :
      Reachable st → Reachable (st.leave_room username).1

/-- The default room is present. -/
def DefaultRoomPresent (st : ServerState) : Prop :=
  (alookup "default" st.rooms).isSome

/-- Every registered session's current room names an existing room. -/
def SessionsRoomExists (st : ServerState) : Prop :=
  ∀ u c, alookup u st.clients = some c → (alookup c.currentRoom st.rooms).isSome

/-- Every room's member set is exactly the set of usernames whose session
currently points at that room. -/
def MembersExact (st : ServerState) : Prop :=
  ∀ name r, alookup name st.rooms = some r →
    ∀ u, u ∈ r.clients ↔ ∃ c, alookup u st.clients = some c ∧ c.currentRoom = name

/-- The registry/room consistency invariant. -/
def StateInv (st : ServerState) : Prop :=
  DefaultRoomPresent st ∧ SessionsRoomExists st ∧ MembersExact st

theorem stateInv_startState : StateInv ServerState.startState := by
  refine ⟨?_, ?_, ?_⟩
  · simp [DefaultRoomPresent, ServerState.startState, alookup]
  · intro u c h
    simp [ServerState.startState, alookup] at h
  · intro name r hr u
    simp [ServerState.startState, alookup] at hr
    obtain ⟨hn, hr⟩ := hr
    subst hr
    simp [ServerState.startState, alookup]

theorem isSome_aupdate {α β : Type} [DecidableEq α] (k k' : α) (f : β → β)
    (l : List (α × β)) : (alookup k (aupdate k' f l)).isSome = (alookup k l).isSome := by
  by_cases h : k = k'
  · subst h
    rw [alookup_aupdate_self]
    cases alookup k l <;> rfl
  · rw [alookup_aupdate_ne _ _ h]

theorem stateInv_add_client (st : ServerState) (ws : Nat) (u : String)
    (h : StateInv st) : StateInv (st.add_client ws u).1 := by
  obtain ⟨hdef, hsess, hmem⟩ := h
  unfold ServerState.add_client
  cases hu : (alookup u st.clients).isSome
  · simp only [hu, Bool.false_eq_true, if_false]
    have hu' : alookup u st.clients = none := by
      cases h' : alookup u st.clients
      · rfl
      · rw [h'] at hu; cases hu
    have hcl : ∀ u', alookup u' (aset u (⟨ws, u, "default"⟩ : Client) st.clients) =
        if u' = u then some ⟨ws, u, "default"⟩ else alookup u' st.clients := by
      intro u'
      by_cases h' : u' = u
      · subst h'; rw [alookup_aset_self]; simp
      · rw [alookup_aset_ne _ _ h']; simp [h']
    refine ⟨?_, ?_, ?_⟩
    · show (alookup "default" _).isSome
      rw [isSome_aupdate]
      exact hdef
    · intro u' c' hc'
      rw [hcl] at hc'
      show (alookup c'.currentRoom _).isSome
      rw [isSome_aupdate]
      by_cases h' : u' = u
      · simp only [h', if_true, Option.some.injEq] at hc'
        rw [← hc']
        exact hdef
      · simp only [h', if_false] at hc'
        exact hsess u' c' hc'
    · intro name r hr u'
      by_cases h1 : name = "default"
      · subst h1
        rw [alookup_aupdate_self] at hr
        obtain ⟨r₀, hr₀, hr₁⟩ := Option.map_eq_some'.mp hr
        subst hr₁
        by_cases h' : u' = u
        · subst h'
          simp only [Finset.mem_insert, true_or, true_iff]
          exact ⟨⟨ws, u', "default"⟩, by rw [hcl]; simp, rfl⟩
        · simp only [Finset.mem_insert, h', false_or]
          rw [hmem "default" r₀ hr₀ u']
          constructor
          · rintro ⟨c', hc', hcr⟩
            exact ⟨c', by rw [hcl]; simp [h', hc'], hcr⟩
          · rintro ⟨c', hc', hcr⟩
            rw [hcl] at hc'
            simp only [h', if_false] at hc'
            exact ⟨c', hc', hcr⟩
      · rw [alookup_aupdate_ne _ _ h1] at hr
        by_cases h' : u' = u
        · subst h'
          constructor
          · intro hmem'
            obtain ⟨c', hc', _⟩ := (hmem name r hr u').mp hmem'
            rw [hu'] at hc'; cases hc'
          · rintro ⟨c', hc', hcr⟩
            rw [hcl] at hc'
            simp only [if_true] at hc'
            cases hc'
            exact absurd hcr.symm h1
        · rw [hmem name r hr u']
          constructor
          · rintro ⟨c', hc', hcr⟩
            exact ⟨c', by rw [hcl]; simp [h', hc'], hcr⟩
          · rintro ⟨c', hc', hcr⟩
            rw [hcl] at hc'
            simp only [h', if_false] at hc'
            exact ⟨c', hc', hcr⟩
  · simp only [hu, if_true]
    exact ⟨hdef, hsess, hmem⟩

theorem stateInv_remove_client (st : ServerState) (ws : Nat)
    (h : StateInv st) : StateInv (st.remove_client ws).1 := by
  obtain ⟨hdef, hsess, hmem⟩ := h
  unfold ServerState.remove_client
  cases hw : alookup ws st.websocket_to_username with
  | none => exact ⟨hdef, hsess, hmem⟩
  | some username =>
    by_cases hempty : username = ""
    · simp only [hempty, if_true]
      exact ⟨hdef, hsess, hmem⟩
    · simp only [hempty, if_false]
      have hcl : ∀ u', alookup u' (aerase username st.clients) =
          if u' = username then none else alookup u' st.clients := by
        intro u'
        by_cases h' : u' = username
        · subst h'; rw [alookup_aerase_self]; simp
        · rw [alookup_aerase_ne _ h']; simp [h']
      cases hc : alookup username st.clients with
      | none =>
        simp only
        refine ⟨hdef, ?_, ?_⟩
        · intro u' c' hc'
          rw [hcl] at hc'
          by_cases h' : u' = username
          · simp [h'] at hc'
          · simp only [h', if_false] at hc'
            exact hsess u' c' hc'
        · intro name r hr u'
          rw [hmem name r hr u']
          by_cases h' : u' = username
          · subst h'
            constructor
            · rintro ⟨c', hc', _⟩
              rw [hc] at hc'; cases hc'
            · rintro ⟨c', hc', _⟩
              rw [hcl] at hc'
              simp at hc'
          · constructor
            · rintro ⟨c', hc', hcr⟩
              exact ⟨c', by rw [hcl]; simp [h', hc'], hcr⟩
            · rintro ⟨c', hc', hcr⟩
              rw [hcl] at hc'
              simp only [h', if_false] at hc'
              exact ⟨c', hc', hcr⟩
      | some client =>
        simp only
        refine ⟨?_, ?_, ?_⟩
        · show (alookup "default" _).isSome
          rw [isSome_aupdate]
          exact hdef
        · intro u' c' hc'
          rw [hcl] at hc'
          by_cases h' : u' = username
          · simp [h'] at hc'
          · simp only [h', if_false] at hc'
            show (alookup c'.currentRoom _).isSome
            rw [isSome_aupdate]
            exact hsess u' c' hc'
        · intro name r hr u'
          by_cases h1 : name = client.currentRoom
          · subst h1
            rw [alookup_aupdate_self] at hr
            obtain ⟨r₀, hr₀, hr₁⟩ := Option.map_eq_some'.mp hr
            subst hr₁
            by_cases h' : u' = username
            · subst h'
              simp only [Finset.mem_erase, ne_eq, not_true_eq_false, false_and, false_iff]
              rintro ⟨c', hc', _⟩
              rw [hcl] at hc'
              simp at hc'
            · simp only [Finset.mem_erase, ne_eq, h', not_false_eq_true, true_and]
              rw [hmem client.currentRoom r₀ hr₀ u']
              constructor
              · rintro ⟨c', hc', hcr⟩
                exact ⟨c', by rw [hcl]; simp [h', hc'], hcr⟩
              · rintro ⟨c', hc', hcr⟩
                rw [hcl] at hc'
                simp only [h', if_false] at hc'
                exact ⟨c', hc', hcr⟩
          · rw [alookup_aupdate_ne _ _ h1] at hr
            by_cases h' : u' = username
            · subst h'
              constructor
              · intro hmem'
                obtain ⟨c', hc', hcr⟩ := (hmem name r hr u').mp hmem'
                rw [hc] at hc'
                cases hc'
                exact absurd hcr.symm h1
              · rintro ⟨c', hc', _⟩
                rw [hcl] at hc'
                simp at hc'
            · rw [hmem name r hr u']
              constructor
              · rintro ⟨c', hc', hcr⟩
                exact ⟨c', by rw [hcl]; simp [h', hc'], hcr⟩
              · rintro ⟨c', hc', hcr⟩
                rw [hcl] at hc'
                simp only [h', if_false] at hc'
                exact ⟨c', hc', hcr⟩

theorem stateInv_create_room (st : ServerState) (n : String)
    (h : StateInv st) : StateInv (st.create_room n).1 := by
  obtain ⟨hdef, hsess, hmem⟩ := h
  unfold ServerState.create_room
  cases hn : (alookup n st.rooms).isSome
  · simp only [hn, Bool.false_eq_true, if_false]
    have hn' : alookup n st.rooms = none := by
      cases h' : alookup n st.rooms
      · rfl
      · rw [h'] at hn; cases hn
    have hro : ∀ k, alookup k (aset n (⟨n, ∅⟩ : Room) st.rooms) =
        if k = n then some ⟨n, ∅⟩ else alookup k st.rooms := by
      intro k
      by_cases h' : k = n
      · subst h'; rw [alookup_aset_self]; simp
      · rw [alookup_aset_ne _ _ h']; simp [h']
    refine ⟨?_, ?_, ?_⟩
    · show (alookup "default" _).isSome
      rw [hro]
      by_cases h' : "default" = n
      · simp [h']
      · simp only [h', if_false]; exact hdef
    · intro u' c' hc'
      show (alookup c'.currentRoom _).isSome
      rw [hro]
      by_cases h' : c'.currentRoom = n
      · simp [h']
      · simp only [h', if_false]
        exact hsess u' c' hc'
    · intro name r hr u'
      rw [hro] at hr
      by_cases h1 : name = n
      · simp only [h1, if_true, Option.some.injEq] at hr
        subst h1
        rw [← hr]
        simp only [Finset.not_mem_empty, false_iff]
        rintro ⟨c', hc', hcr⟩
        have := hsess u' c' hc'
        rw [hcr, hn'] at this
        cases this
      · simp only [h1, if_false] at hr
        exact hmem name r hr u'
  · simp only [hn, if_true]
    exact ⟨hdef, hsess, hmem⟩

theorem stateInv_transfer (st : ServerState) (u n : String) (c : Client)
    (hc : alookup u st.clients = some c) (hn : (alookup n st.rooms).isSome)
    (h : StateInv st) :
    StateInv { st with
      rooms := aupdate n (fun r => { r with clients := insert u r.clients })
        (aupdate c.currentRoom (fun r => { r with clients := r.clients.erase u }) st.rooms),
      clients := aupdate u (fun c' => { c' with currentRoom := n }) st.clients } := by
  obtain ⟨hdef, hsess, hmem⟩ := h
  have hcl : ∀ u', alookup u' (aupdate u (fun c' => { c' with currentRoom := n }) st.clients) =
      if u' = u then some { c with currentRoom := n } else alookup u' st.clients := by
    intro u'
    by_cases h' : u' = u
    · subst h'
      rw [alookup_aupdate_self, hc]
      simp
    · rw [alookup_aupdate_ne _ _ h']
      simp [h']
  refine ⟨?_, ?_, ?_⟩
  · show (alookup "default" _).isSome
    rw [isSome_aupdate, isSome_aupdate]
    exact hdef
  · intro u' c' hc'
    rw [hcl] at hc'
    show (alookup c'.currentRoom _).isSome
    rw [isSome_aupdate, isSome_aupdate]
    by_cases h' : u' = u
    · simp only [h', if_true, Option.some.injEq] at hc'
      rw [← hc']
      exact hn
    · simp only [h', if_false] at hc'
      exact hsess u' c' hc'
  · intro name r hr u'
    by_cases h1 : name = n
    · subst h1
      rw [alookup_aupdate_self] at hr
      by_cases h2 : name = c.currentRoom
      · rw [h2, alookup_aupdate_self] at hr
        rw [← h2] at hr
        cases hro : alookup name st.rooms with
        | none =>
          rw [h2, ← h2, hro] at hr
          cases hr
        | some r₀ =>
          rw [h2, ← h2, hro] at hr
          simp only [Option.map_some', Option.some.injEq] at hr
          subst hr
          by_cases h' : u' = u
          · subst h'
            simp only [Finset.mem_insert, true_or, true_iff]
            exact ⟨{ c with currentRoom := name }, by rw [hcl]; simp, rfl⟩
          · simp only [Finset.mem_insert, h', false_or, Finset.mem_erase, ne_eq, h',
              not_false_eq_true, true_and]
            rw [hmem name r₀ hro u']
            constructor
            · rintro ⟨c', hc', hcr⟩
              exact ⟨c', by rw [hcl]; simp [h', hc'], hcr⟩
            · rintro ⟨c', hc', hcr⟩
              rw [hcl] at hc'
              simp only [h', if_false] at hc'
              exact ⟨c', hc', hcr⟩
      · rw [alookup_aupdate_ne _ _ h2] at hr
        obtain ⟨r₀, hr₀, hr₁⟩ := Option.map_eq_some'.mp hr
        subst hr₁
        by_cases h' : u' = u
        · subst h'
          simp only [Finset.mem_insert, true_or, true_iff]
          exact ⟨{ c with currentRoom := name }, by rw [hcl]; simp, rfl⟩
        · simp only [Finset.mem_insert, h', false_or]
          rw [hmem name r₀ hr₀ u']
          constructor
          · rintro ⟨c', hc', hcr⟩
            exact ⟨c', by rw [hcl]; simp [h', hc'], hcr⟩
          · rintro ⟨c', hc', hcr⟩
            rw [hcl] at hc'
            simp only [h', if_false] at hc'
            exact ⟨c', hc', hcr⟩
    · rw [alookup_aupdate_ne _ _ h1] at hr
      by_cases h2 : name = c.currentRoom
      · subst h2
        rw [alookup_aupdate_self] at hr
        obtain ⟨r₀, hr₀, hr₁⟩ := Option.map_eq_some'.mp hr
        subst hr₁
        by_cases h' : u' = u
        · subst h'
          simp only [Finset.mem_erase, ne_eq, not_true_eq_false, false_and, false_iff]
          rintro ⟨c', hc', hcr⟩
          rw [hcl] at hc'
          simp only [if_true, Option.some.injEq] at hc'
          rw [← hc'] at hcr
          exact h1 hcr.symm
        · simp only [Finset.mem_erase, ne_eq, h', not_false_eq_true, true_and]
          rw [hmem _ r₀ hr₀ u']
          constructor
          · rintro ⟨c', hc', hcr⟩
            exact ⟨c', by rw [hcl]; simp [h', hc'], hcr⟩
          · rintro ⟨c', hc', hcr⟩
            rw [hcl] at hc'
            simp only [h', if_false] at hc'
            exact ⟨c', hc', hcr⟩
      · rw [alookup_aupdate_ne _ _ h2] at hr
        by_cases h' : u' = u
        · subst h'
          constructor
          · intro hmem'
            obtain ⟨c', hc', hcr⟩ := (hmem name r hr u').mp hmem'
            rw [hc] at hc'
            cases hc'
            exact absurd hcr.symm h2
          · rintro ⟨c', hc', hcr⟩
            rw [hcl] at hc'
            simp only [if_true, Option.some.injEq] at hc'
            rw [← hc'] at hcr
            exact absurd hcr.symm h1
        · rw [hmem name r hr u']
          constructor
          · rintro ⟨c', hc', hcr⟩
            exact ⟨c', by rw [hcl]; simp [h', hc'], hcr⟩
          · rintro ⟨c', hc', hcr⟩
            rw [hcl] at hc'
            simp only [h', if_false] at hc'
            exact ⟨c', hc', hcr⟩

theorem stateInv_join_room (st : ServerState) (u n : String)
    (h : StateInv st) : StateInv (st.join_room u n).1 := by
  unfold ServerState.join_room
  cases hc : alookup u st.clients with
  | none => exact h
  | some client =>
    cases hn : (alookup n st.rooms).isSome
    · simp only [hn, Bool.false_eq_true, if_false]
      exact h
    · simp only [hn, if_true]
      exact stateInv_transfer st u n client hc hn h

theorem stateInv_leave_room (st : ServerState) (u : String)
    (h : StateInv st) : StateInv (st.leave_room u).1 := by
  unfold ServerState.leave_room
  cases hc : alookup u st.clients with
  | none => exact h
  | some client =>
    by_cases hd : client.currentRoom = "default"
    · simp only [hd, if_true]
      exact h
    · simp only [hd, if_false]
      exact stateInv_transfer st u "default" client hc h.1 h

theorem reachable_stateInv {st : ServerState} (h : Reachable st) : StateInv st := by
  induction h with
  | start => exact stateInv_startState
  | add_client ws u _ ih => exact stateInv_add_client _ ws u ih
  | remove_client ws _ ih => exact stateInv_remove_client _ ws ih
  | create_room n _ ih => exact stateInv_create_room _ n ih
  | join_room u n _ ih => exact stateInv_join_room _ u n ih
  | leave_room u _ ih => exact stateInv_leave_room _ u ih

theorem alookup_list_rooms (st : ServerState) (k : String) :
    alookup k st.list_rooms = (alookup k st.rooms).map (fun r => r.clients.card) := by
  show alookup k (st.rooms.map (fun p => (p.1, p.2.clients.card))) = _
  generalize st.rooms = l
  induction l with
  | nil => rfl
  | cons p rest ih =>
    obtain ⟨k', v⟩ := p
    by_cases hk : k' = k <;> simp [alookup, hk, ih]

/-- Claim C1: in every state reachable by any sequence of the `ServerState`
operations (`add_client`, `remove_client`, `create_room`, `join_room`,
`leave_room`), every registered session's `currentRoom` names an existing
room, every room's member set is exactly the set of usernames whose
session's `currentRoom` equals that room's name, and consequently each
registered username is a member of exactly one room — never zero, never
two. -/
theorem reachable_room_membership_invariant (st : ServerState) (h : Reachable st) :
    SessionsRoomExists st ∧ MembersExact st ∧
    ∀ u c, alookup u st.clients = some c →
      ∃! name, ∃ r, alookup name st.rooms = some r ∧ u ∈ r.clients := by
  obtain ⟨hdef, hsess, hmem⟩ := reachable_stateInv h
  refine ⟨hsess, hmem, ?_⟩
  intro u c hc
  have hex := hsess u c hc
  cases hro : alookup c.currentRoom st.rooms with
  | none => rw [hro] at hex; cases hex
  | some r₀ =>
    refine ⟨c.currentRoom, ⟨r₀, hro, ?_⟩, ?_⟩
    · exact (hmem _ r₀ hro u).mpr ⟨c, hc, rfl⟩
    · rintro name ⟨r, hr, hu⟩
      obtain ⟨c', hc', hcr⟩ := (hmem name r hr u).mp hu
      rw [hc] at hc'
      cases hc'
      exact hcr.symm

/-- Witness for C1 at a concrete reachable state. -/
theorem reachable_room_membership_invariant_witness :
    SessionsRoomExists (ServerState.startState.add_client 0 "alice").1 ∧
    MembersExact (ServerState.startState.add_client 0 "alice").1 ∧
    ∀ u c, alookup u (ServerState.startState.add_client 0 "alice").1.clients = some c →
      ∃! name, ∃ r,
        alookup name (ServerState.startState.add_client 0 "alice").1.rooms = some r ∧
        u ∈ r.clients :=
  reachable_room_membership_invariant _ (Reachable.add_client 0 "alice" Reachable.start)

/-- Claim C2: `add_client` (registration) fails exactly when a session with
the username already exists; a failed registration returns the state
untouched, and a successful one — in the same atomic step — creates the
session bound to the default room, binds the websocket, and inserts the
username into the default room's member set, leaving all other rooms and
sessions unchanged. -/
theorem add_client_register_spec (st : ServerState) (ws : Nat) (u : String) :
    ((st.add_client ws u).2 = false ↔ (alookup u st.clients).isSome) ∧
    ((alookup u st.clients).isSome → st.add_client ws u = (st, false)) ∧
    (alookup u st.clients = none →
      alookup u (st.add_client ws u).1.clients = some ⟨ws, u, "default"⟩ ∧
      alookup ws (st.add_client ws u).1.websocket_to_username = some u ∧
      (∀ r, alookup "default" st.rooms = some r →
        alookup "default" (st.add_client ws u).1.rooms =
          some { r with clients := insert u r.clients }) ∧
      (∀ name, name ≠ "default" →
        alookup name (st.add_client ws u).1.rooms = alookup name st.rooms) ∧
      (∀ u', u' ≠ u → alookup u' (st.add_client ws u).1.clients = alookup u' st.clients)) := by
  cases hu : alookup u st.clients with
  | some c =>
    have hres : st.add_client ws u = (st, false) := by
      simp only [ServerState.add_client, hu, Option.isSome_some, if_true]
    refine ⟨?_, fun _ => hres, ?_⟩
    · rw [hres]
      simp
    · intro hnone
      simp at hnone
  | none =>
    have hflag : (st.add_client ws u).2 = true := by
      simp only [ServerState.add_client, hu, Option.isSome_none, Bool.false_eq_true, if_false]
    have hcl : (st.add_client ws u).1.clients = aset u ⟨ws, u, "default"⟩ st.clients := by
      simp only [ServerState.add_client, hu, Option.isSome_none, Bool.false_eq_true, if_false]
    have hro : (st.add_client ws u).1.rooms =
        aupdate "default" (fun r => { r with clients := insert u r.clients }) st.rooms := by
      simp only [ServerState.add_client, hu, Option.isSome_none, Bool.false_eq_true, if_false]
    have hws : (st.add_client ws u).1.websocket_to_username =
        aset ws u st.websocket_to_username := by
      simp only [ServerState.add_client, hu, Option.isSome_none, Bool.false_eq_true, if_false]
    refine ⟨?_, ?_, ?_⟩
    · rw [hflag]
      simp
    · intro hs
      simp at hs
    · intro _
      refine ⟨?_, ?_, ?_, ?_, ?_⟩
      · rw [hcl]
        exact alookup_aset_self u _ st.clients
      · rw [hws]
        exact alookup_aset_self ws u st.websocket_to_username
      · intro r hr
        rw [hro, alookup_aupdate_self, hr]
        rfl
      · intro name hname
        rw [hro]
        exact alookup_aupdate_ne _ _ hname
      · intro u' hu'
        rw [hcl]
        exact alookup_aset_ne _ _ hu'

/-- Witness for C2: registering "alice" in the fresh state creates her
session in the default room. -/
theorem add_client_register_spec_witness :
    alookup "alice" (ServerState.startState.add_client 0 "alice").1.clients =
      some ⟨0, "alice", "default"⟩ :=
  ((add_client_register_spec ServerState.startState 0 "alice").2.2 rfl).1

/-- Claim C4: `join_room` returns `false` and leaves the state untouched
when the username has no session or the target room does not exist (it
never creates the room); otherwise it returns `true`, moves the username
from its current room's member set to the target room's member set and
repoints the session, touching nothing else; joining the room the session
is already in is a complete no-op that still returns `true`. -/
theorem join_room_spec (st : ServerState) (u n : String) :
    ((alookup u st.clients = none ∨ alookup n st.rooms = none) →
      st.join_room u n = (st, false)) ∧
    (∀ c, alookup u st.clients = some c → (alookup n st.rooms).isSome →
      (st.join_room u n).2 = true ∧
      alookup u (st.join_room u n).1.clients = some { c with currentRoom := n } ∧
      (∀ u', u' ≠ u →
        alookup u' (st.join_room u n).1.clients = alookup u' st.clients) ∧
      (c.currentRoom ≠ n →
        alookup c.currentRoom (st.join_room u n).1.rooms =
          (alookup c.currentRoom st.rooms).map
            (fun r => { r with clients := r.clients.erase u }) ∧
        alookup n (st.join_room u n).1.rooms =
          (alookup n st.rooms).map (fun r => { r with clients := insert u r.clients }) ∧
        (∀ name, name ≠ c.currentRoom → name ≠ n →
          alookup name (st.join_room u n).1.rooms = alookup name st.rooms))) ∧
    (∀ c, alookup u st.clients = some c → c.currentRoom = n →
      (∀ r, alookup n st.rooms = some r → u ∈ r.clients) →
      (alookup n st.rooms).isSome →
      st.join_room u n = (st, true)) := by
  refine ⟨?_, ?_, ?_⟩
  · rintro (hc | hn)
    · unfold ServerState.join_room
      rw [hc]
    · unfold ServerState.join_room
      cases hc : alookup u st.clients with
      | none => rfl
      | some c => rw [hn]; rfl
  · intro c hc hn
    have hres : st.join_room u n =
        ({ st with
           rooms := aupdate n (fun r => { r with clients := insert u r.clients })
              (aupdate c.currentRoom
                (fun r => { r with clients := r.clients.erase u }) st.rooms),
           clients := aupdate u (fun c' => { c' with currentRoom := n }) st.clients },
         true) := by
      simp only [ServerState.join_room, hc, hn, if_true]
    rw [hres]
    refine ⟨rfl, ?_, ?_, ?_⟩
    · show alookup u (aupdate u _ st.clients) = _
      rw [alookup_aupdate_self, hc]
      rfl
    · intro u' hu'
      exact alookup_aupdate_ne _ _ hu'
    · intro hne
      refine ⟨?_, ?_, ?_⟩
      · show alookup c.currentRoom (aupdate n _ _) = _
        rw [alookup_aupdate_ne _ _ hne, alookup_aupdate_self]
      · show alookup n (aupdate n _ _) = _
        rw [alookup_aupdate_self, alookup_aupdate_ne _ _ (Ne.symm hne)]
      · intro name h1 h2
        show alookup name (aupdate n _ _) = _
        rw [alookup_aupdate_ne _ _ h2, alookup_aupdate_ne _ _ h1]
  · intro c hc hcr hmemb hn
    have hres : st.join_room u n =
        ({ st with
           rooms := aupdate n (fun r => { r with clients := insert u r.clients })
              (aupdate c.currentRoom
                (fun r => { r with clients := r.clients.erase u }) st.rooms),
           clients := aupdate u (fun c' => { c' with currentRoom := n }) st.clients },
         true) := by
      simp only [ServerState.join_room, hc, hn, if_true]
    rw [hres, hcr, aupdate_aupdate]
    have hrooms : aupdate n
        (fun r => { { r with clients := r.clients.erase u } with
                     clients := insert u ({ r with clients := r.clients.erase u }).clients })
        st.rooms = st.rooms := by
      apply aupdate_eq_self
      intro r hr
      have hins : insert u (r.clients.erase u) = r.clients :=
        Finset.insert_erase (hmemb r hr)
      simp only
      rw [hins]
    have hclients : aupdate u (fun c' => { c' with currentRoom := n }) st.clients =
        st.clients := by
      apply aupdate_eq_self
      intro c' hc'
      rw [hc] at hc'
      cases hc'
      rw [← hcr]
    rw [hrooms, hclients]

/-- Witness for C4: after "alice" registers and "dev" is created, joining
"dev" succeeds. -/
theorem join_room_spec_witness :
    (((ServerState.startState.add_client 0 "alice").1.create_room "dev").1.join_room
      "alice" "dev").2 = true :=
  ((join_room_spec ((ServerState.startState.add_client 0 "alice").1.create_room "dev").1
    "alice" "dev").2.1 ⟨0, "alice", "default"⟩ (by decide) (by decide)).1

/-- Claim C7: for a session already in the default room, `leave_room` is a
no-op returning `none`, and any number of repeated calls leaves the entire
state (registry and all room member sets) unchanged. -/
theorem leave_room_default_noop (st : ServerState) (u : String) (c : Client)
    (hc : alookup u st.clients = some c) (hd : c.currentRoom = "default") :
    st.leave_room u = (st, none) ∧
    ∀ k : Nat, (fun s => (ServerState.leave_room s u).1)^[k] st = st := by
  have h1 : st.leave_room u = (st, none) := by
    unfold ServerState.leave_room
    rw [hc]
    simp [hd]
  refine ⟨h1, ?_⟩
  intro k
  induction k with
  | zero => rfl
  | succ k ih =>
    rw [Function.iterate_succ_apply', ih]
    show (st.leave_room u).1 = st
    rw [h1]

/-- Witness for C7 at a concrete state: "alice" sits in the default room and
`leave_room` answers `none` without touching the state. -/
theorem leave_room_default_noop_witness :
    (ServerState.startState.add_client 0 "alice").1.leave_room "alice" =
      ((ServerState.startState.add_client 0 "alice").1, none) :=
  (leave_room_default_noop (ServerState.startState.add_client 0 "alice").1 "alice"
    ⟨0, "alice", "default"⟩ (by decide) rfl).1

/-- Claim C8: when room `x` does not exist, `create_room x` succeeds and the
next `list_rooms` reports `x` with member count 0 alongside the default room
at its current occupancy. -/
theorem create_room_then_list_rooms (st : ServerState) (x : String)
    (hx : alookup x st.rooms = none) :
    (st.create_room x).2 = true ∧
    alookup x (st.create_room x).1.list_rooms = some 0 ∧
    (∀ r, alookup "default" st.rooms = some r →
      alookup "default" (st.create_room x).1.list_rooms = some r.clients.card) := by
  have hflag : (st.create_room x).2 = true := by
    simp only [ServerState.create_room, hx, Option.isSome_none, Bool.false_eq_true, if_false]
  have hrooms : (st.create_room x).1.rooms = aset x ⟨x, ∅⟩ st.rooms := by
    simp only [ServerState.create_room, hx, Option.isSome_none, Bool.false_eq_true, if_false]
  refine ⟨hflag, ?_, ?_⟩
  · rw [alookup_list_rooms, hrooms, alookup_aset_self]
    rfl
  · intro r hr
    have hxd : "default" ≠ x := by
      rintro rfl
      rw [hx] at hr
      cases hr
    rw [alookup_list_rooms, hrooms, alookup_aset_ne _ _ hxd, hr]
    rfl

/-- Witness for C8: creating "dev" in the fresh state makes it appear in the
listing with count 0. -/
theorem create_room_then_list_rooms_witness :
    alookup "dev" (ServerState.startState.create_room "dev").1.list_rooms = some 0 :=
  (create_room_then_list_rooms ServerState.startState "dev" (by decide)).2.1

/-- Claim C10: requesting the member snapshot of a room that does not exist
returns the empty set and hands the state back untouched, with no error. -/
theorem get_room_clients_unknown_room (st : ServerState) (n : String)
    (h : alookup n st.rooms = none) : st.get_room_clients n = (st, ∅) := by
  unfold ServerState.get_room_clients
  rw [h]

/-- Witness for C10 at the fresh state and an unknown room name. -/
theorem get_room_clients_unknown_room_witness :
    ServerState.startState.get_room_clients "lobby" = (ServerState.startState, ∅) :=
  get_room_clients_unknown_room ServerState.startState "lobby" (by decide)

/-- Inbound action message as seen by `MessageHandler.handle_message` of
`src/src/handlers.py`: the action string plus the two `data` fields the
handlers read (`data.get("room_name")` and `data.get("message")`; `none`
stands for an absent field). -/
structure InMessage where
  action : String
  room_name : Option String := none
  message : Option String := none
deriving DecidableEq

/-- Embeds `MessageHandler.broadcast_to_room` of `src/src/handlers.py`: snapshot
the room's members, skip the excluded username, resolve each member's
websocket and send.  Each emitted element records the recipient username
alongside its websocket and the delivered message. -/
def MessageHandler.broadcast_to_room (st : ServerState) (room_name : String)
    (message : ProtocolMessage) (exclude_username : Option String) :
    Multiset (String × Nat × ProtocolMessage) :=
  let clients := (st.get_room_clients room_name).2
  clients.val.filterMap (fun username =>
    if some username = exclude_username then none
    else match st.get_client_websocket username with
      | some ws => some (username, ws, message)
      | none => none)

/-- Embeds `MessageHandler.handle_create_room` of `src/src/handlers.py`. -/
def MessageHandler.handle_create_room (st : ServerState) (data_room_name : Option String) :
    ServerState × ProtocolMessage × Multiset (String × Nat × ProtocolMessage) :=
  match data_room_name with
  | none => (st, ProtocolMessage.create_error "Nom de salon manquant", ∅)
  | some room_name =>
    if room_name = "" then (st, ProtocolMessage.create_error "Nom de salon manquant", ∅)
    else match st.create_room room_name with
      | (st1, true) =>
        (st1, ProtocolMessage.create_success
          ("Salon \x27" ++ room_name ++ "\x27 créé avec succès")
          [("room_name", JVal.s room_name)], ∅)
      | (st1, false) =>
        (st1, ProtocolMessage.create_error
          ("Le salon \x27" ++ room_name ++ "\x27 existe déjà"), ∅)

/-- Embeds `MessageHandler.handle_join_room` of `src/src/handlers.py`. -/
def MessageHandler.handle_join_room (st : ServerState) (websocket : Nat)
    (data_room_name : Option String) :
    ServerState × ProtocolMessage × Multiset (String × Nat × ProtocolMessage) :=
  match data_room_name with
  | none => (st, ProtocolMessage.create_error "Nom de salon manquant", ∅)
  | some room_name =>
    if room_name = "" then (st, ProtocolMessage.create_error "Nom de salon manquant", ∅)
    else match st.get_username_from_websocket websocket with
      | none => (st, ProtocolMessage.create_error "Utilisateur non connecté", ∅)
      | some username =>
        if username = "" then (st, ProtocolMessage.create_error "Utilisateur non connecté", ∅)
        else match st.join_room username room_name with
          | (st1, true) =>
            (st1, ProtocolMessage.create_success
              ("Vous avez rejoint le salon \x27" ++ room_name ++ "\x27")
              [("room_name", JVal.s room_name)],
             MessageHandler.broadcast_to_room st1 room_name
              ⟨"receive_message",
               [("room_name", JVal.s room_name), ("username", JVal.s "SYSTÈME"),
                ("message", JVal.s (username ++ " a rejoint le salon"))]⟩
              (some username))
          | (st1, false) =>
            (st1, ProtocolMessage.create_error
              ("Impossible de rejoindre \x27" ++ room_name ++ "\x27"), ∅)

/-- Embeds `MessageHandler.handle_leave_room` of `src/src/handlers.py`. -/
def MessageHandler.handle_leave_room (st : ServerState) (websocket : Nat) :
    ServerState × ProtocolMessage × Multiset (String × Nat × ProtocolMessage) :=
  match st.get_username_from_websocket websocket with
  | none => (st, ProtocolMessage.create_error "Utilisateur non connecté", ∅)
  | some username =>
    if username = "" then (st, ProtocolMessage.create_error "Utilisateur non connecté", ∅)
    else match st.leave_room username with
      | (st1, some old_room) =>
        if old_room = "" then
          (st1, ProtocolMessage.create_error "Vous êtes déjà dans le salon par défaut", ∅)
        else
          (st1, ProtocolMessage.create_success
            ("Vous avez quitté \x27" ++ old_room ++
              "\x27 et êtes retourné au salon par défaut")
            [("old_room", JVal.s old_room), ("new_room", JVal.s "default")],
           MessageHandler.broadcast_to_room st1 old_room
            ⟨"receive_message",
             [("room_name", JVal.s old_room), ("username", JVal.s "SYSTÈME"),
              ("message", JVal.s (username ++ " a quitté le salon"))]⟩
            none)
      | (st1, none) =>
        (st1, ProtocolMessage.create_error "Vous êtes déjà dans le salon par défaut", ∅)

/-- Embeds `MessageHandler.handle_send_message` of `src/src/handlers.py`.  Note
that the broadcast is issued with no `exclude_username`. -/
def MessageHandler.handle_send_message (st : ServerState) (websocket : Nat)
    (data_message : Option String) :
    ServerState × ProtocolMessage × Multiset (String × Nat × ProtocolMessage) :=
  match st.get_username_from_websocket websocket with
  | none => (st, ProtocolMessage.create_error "Utilisateur non connecté", ∅)
  | some username =>
    if username = "" then (st, ProtocolMessage.create_error "Utilisateur non connecté", ∅)
    else match data_message with
      | none => (st, ProtocolMessage.create_error "Message vide", ∅)
      | some message_text =>
        if message_text = "" then (st, ProtocolMessage.create_error "Message vide", ∅)
        else match st.get_client_room username with
          | none => (st, ProtocolMessage.create_error "Vous n\x27êtes dans aucun salon", ∅)
          | some room_name =>
            if room_name = "" then
              (st, ProtocolMessage.create_error "Vous n\x27êtes dans aucun salon", ∅)
            else
              (st, ProtocolMessage.create_success "Message envoyé" [],
               MessageHandler.broadcast_to_room st room_name
                ⟨"receive_message",
                 [("room_name", JVal.s room_name), ("username", JVal.s username),
                  ("message", JVal.s message_text)]⟩
                none)

/-- Embeds `MessageHandler.handle_list_rooms` of `src/src/handlers.py`. -/
def MessageHandler.handle_list_rooms (st : ServerState) :
    ServerState × ProtocolMessage × Multiset (String × Nat × ProtocolMessage) :=
  (st, ProtocolMessage.create_success "Liste des salons"
    [("rooms", JVal.obj st.list_rooms)], ∅)

/-- Embeds `MessageHandler.handle_list_users` of `src/src/handlers.py`. -/
def MessageHandler.handle_list_users (st : ServerState) (data_room_name : Option String) :
    ServerState × ProtocolMessage × Multiset (String × Nat × ProtocolMessage) :=
  let room_name := data_room_name.getD "default"
  let users := (st.get_room_clients room_name).2
  (st, ProtocolMessage.create_success ("Utilisateurs dans \x27" ++ room_name ++ "\x27")
    [("room_name", JVal.s room_name), ("users", JVal.arr (users.sort (· ≤ ·)))], ∅)

/-- Embeds `MessageHandler.handle_message` of `src/src/handlers.py`: dispatch on
the action string.  There is no session check before dispatching. -/
def MessageHandler.handle_message (st : ServerState) (websocket : Nat) (msg : InMessage) :
    ServerState × ProtocolMessage × Multiset (String × Nat × ProtocolMessage) :=
  if msg.action = "create_room" then MessageHandler.handle_create_room st msg.room_name
  else if msg.action = "join_room" then
    MessageHandler.handle_join_room st websocket msg.room_name
  else if msg.action = "leave_room" then MessageHandler.handle_leave_room st websocket
  else if msg.action = "send_message" then
    MessageHandler.handle_send_message st websocket msg.message
  else if msg.action = "list_rooms" then MessageHandler.handle_list_rooms st
  else if msg.action = "list_users" then MessageHandler.handle_list_users st msg.room_name
  else (st, ProtocolMessage.create_error ("Action inconnue: " ++ msg.action), ∅)

/-- Claim C3 counterexample: the fresh state has no session bound to
websocket 0, yet `handle_message` of `src/src/handlers.py` dispatches its
`create_room` action: the reply is a success, the state gains room "x". -/
theorem unregistered_create_room_counterexample :
    ServerState.startState.get_username_from_websocket 0 = none ∧
    (MessageHandler.handle_message ServerState.startState 0
      ⟨"create_room", some "x", none⟩).2.1.action = "success" ∧
    (MessageHandler.handle_message ServerState.startState 0
      ⟨"create_room", some "x", none⟩).1 ≠ ServerState.startState ∧
    alookup "x" (MessageHandler.handle_message ServerState.startState 0
      ⟨"create_room", some "x", none⟩).1.rooms = some ⟨"x", ∅⟩ := by
  refine ⟨rfl, rfl, ?_, rfl⟩
  intro hco
  have : alookup "x" (MessageHandler.handle_message ServerState.startState 0
      ⟨"create_room", some "x", none⟩).1.rooms =
      alookup "x" ServerState.startState.rooms := by rw [hco]
  rw [show alookup "x" (MessageHandler.handle_message ServerState.startState 0
      ⟨"create_room", some "x", none⟩).1.rooms = some ⟨"x", ∅⟩ from rfl] at this
  rw [show alookup "x" ServerState.startState.rooms = none from rfl] at this
  cases this

/-- Claim C3 as amended: under `src/src/handlers.py`'s dispatcher, an action
from a connection with no bound session is answered with an error and
mutates nothing only for the session-requiring actions `join_room`,
`leave_room` and `send_message`; `create_room` is dispatched normally, so an
unregistered connection can create a room (success reply, room added). -/
theorem unregistered_dispatch_spec (st : ServerState) (ws : Nat) (msg : InMessage)
    (h : st.get_username_from_websocket ws = none) :
    ((msg.action = "join_room" ∨ msg.action = "leave_room" ∨ msg.action = "send_message") →
      (MessageHandler.handle_message st ws msg).1 = st ∧
      (MessageHandler.handle_message st ws msg).2.1.action = "error" ∧
      (MessageHandler.handle_message st ws msg).2.2 = ∅) ∧
    (msg.action = "create_room" → ∀ n, msg.room_name = some n → n ≠ "" →
      alookup n st.rooms = none →
      (MessageHandler.handle_message st ws msg).2.1.action = "success" ∧
      alookup n (MessageHandler.handle_message st ws msg).1.rooms = some ⟨n, ∅⟩) := by
  constructor
  · rintro (ha | ha | ha)
    · have hd : MessageHandler.handle_message st ws msg =
          MessageHandler.handle_join_room st ws msg.room_name := by
        simp [MessageHandler.handle_message, ha]
      rw [hd]
      cases hrn : msg.room_name with
      | none => simp [MessageHandler.handle_join_room, ProtocolMessage.create_error]
      | some r =>
        by_cases hr : r = ""
        · simp [MessageHandler.handle_join_room, hr, ProtocolMessage.create_error]
        · simp [MessageHandler.handle_join_room, hr, h, ProtocolMessage.create_error]
    · have hd : MessageHandler.handle_message st ws msg =
          MessageHandler.handle_leave_room st ws := by
        simp [MessageHandler.handle_message, ha]
      rw [hd]
      simp [MessageHandler.handle_leave_room, h, ProtocolMessage.create_error]
    · have hd : MessageHandler.handle_message st ws msg =
          MessageHandler.handle_send_message st ws msg.message := by
        simp [MessageHandler.handle_message, ha]
      rw [hd]
      simp [MessageHandler.handle_send_message, h, ProtocolMessage.create_error]
  · intro ha n hn hne hnone
    have hd : MessageHandler.handle_message st ws msg =
        MessageHandler.handle_create_room st msg.room_name := by
      simp [MessageHandler.handle_message, ha]
    have hcr : st.create_room n = ({ st with rooms := aset n ⟨n, ∅⟩ st.rooms }, true) := by
      simp only [ServerState.create_room, hnone, Option.isSome_none, Bool.false_eq_true,
        if_false]
    rw [hd, hn]
    simp [MessageHandler.handle_create_room, hne, hcr, ProtocolMessage.create_success,
      alookup_aset_self]

/-- Witness for the amended C3: an unregistered `send_message` is refused. -/
theorem unregistered_dispatch_spec_witness :
    (MessageHandler.handle_message ServerState.startState 0
      ⟨"send_message", none, some "hi"⟩).2.1.action = "error" :=
  ((unregistered_dispatch_spec ServerState.startState 0
      ⟨"send_message", none, some "hi"⟩ rfl).1 (Or.inr (Or.inr rfl))).2.1

/-- Embeds `ChatServer.register_client` of `src/src/server.py`: the handshake.
`username` is `data.get("username")` from the decoded first message (`none`
for an absent or null field); the reply list pairs each message with its
target websocket; the middle component is the username handed back to the
receive loop (`none` on failure). -/
def ChatServer.register_client (st : ServerState) (websocket : Nat)
    (username : Option String) :
    ServerState × Option String × List (Nat × ProtocolMessage) :=
  match username with
  | none => (st, none, [(websocket, ProtocolMessage.create_error "Username manquant")])
  | some u =>
    if u = "" then (st, none, [(websocket, ProtocolMessage.create_error "Username manquant")])
    else match st.add_client websocket u with
      | (st1, true) =>
        (st1, some u, [(websocket, ProtocolMessage.create_success
          ("Bienvenue " ++ u ++ "! Vous êtes dans le salon \x27default\x27")
          [("username", JVal.s u), ("room", JVal.s "default")])])
      | (st1, false) =>
        (st1, none, [(websocket, ProtocolMessage.create_error
          ("Username \x27" ++ u ++ "\x27 déjà utilisé"))])

/-- Claim C9: a handshake whose username field is absent, null (both decode
to `none`) or the empty string never creates a session: the reply is an
error and the registry, the websocket map and the rooms are unchanged. -/
theorem register_client_missing_username (st : ServerState) (ws : Nat)
    (username : Option String) (h : username = none ∨ username = some "") :
    ChatServer.register_client st ws username =
      (st, none, [(ws, ProtocolMessage.create_error "Username manquant")]) := by
  rcases h with rfl | rfl
  · rfl
  · rfl

/-- Witness for C9 at a concrete call. -/
theorem register_client_missing_username_witness :
    ChatServer.register_client ServerState.startState 0 none =
      (ServerState.startState, none,
       [(0, ProtocolMessage.create_error "Username manquant")]) :=
  register_client_missing_username ServerState.startState 0 none (Or.inl rfl)

theorem mem_broadcast_to_room (st : ServerState) (room_name : String)
    (message : ProtocolMessage) (exclude_username : Option String)
    (u : String) (w : Nat) (m : ProtocolMessage) :
    (u, w, m) ∈ MessageHandler.broadcast_to_room st room_name message exclude_username ↔
      (u ∈ (st.get_room_clients room_name).2 ∧ some u ≠ exclude_username ∧
       st.get_client_websocket u = some w ∧ m = message) := by
  unfold MessageHandler.broadcast_to_room
  simp only [Multiset.mem_filterMap, Finset.mem_val]
  constructor
  · rintro ⟨a, ha, hf⟩
    by_cases he : some a = exclude_username
    · rw [if_pos he] at hf
      cases hf
    · rw [if_neg he] at hf
      cases hwsa : st.get_client_websocket a with
      | none => rw [hwsa] at hf; cases hf
      | some w' =>
        rw [hwsa] at hf
        simp only [Option.some.injEq, Prod.mk.injEq] at hf
        obtain ⟨h1, h2, h3⟩ := hf
        subst h1
        subst h2
        subst h3
        exact ⟨ha, he, hwsa, rfl⟩
  · rintro ⟨hmem, hne, hws', rfl⟩
    refine ⟨u, hmem, ?_⟩
    rw [if_neg hne, hws']

/-- Claim C6 as amended: a successful `send_message` through
`src/src/handlers.py` (registered sender, non-empty text) acknowledges with
success, does not change the state, and delivers the `receive_message`
payload carrying the sender's username, the text and the room name to every
member of the sender's current room — including the sender itself, since
`handle_send_message` passes no `exclude_username` — and to no member of any
other room. -/
theorem handle_send_message_spec (st : ServerState) (ws : Nat) (sender text : String)
    (hinv : StateInv st)
    (hws : st.get_username_from_websocket ws = some sender) (hsne : sender ≠ "")
    (c : Client) (hc : alookup sender st.clients = some c) (hrne : c.currentRoom ≠ "")
    (htne : text ≠ "") :
    (MessageHandler.handle_send_message st ws (some text)).1 = st ∧
    (MessageHandler.handle_send_message st ws (some text)).2.1 =
      ProtocolMessage.create_success "Message envoyé" [] ∧
    (∀ u w m, (u, w, m) ∈ (MessageHandler.handle_send_message st ws (some text)).2.2 ↔
      ((∃ r, alookup c.currentRoom st.rooms = some r ∧ u ∈ r.clients) ∧
       st.get_client_websocket u = some w ∧
       m = ⟨"receive_message",
            [("room_name", JVal.s c.currentRoom), ("username", JVal.s sender),
             ("message", JVal.s text)]⟩)) ∧
    (∀ u, (∃ r, alookup c.currentRoom st.rooms = some r ∧ u ∈ r.clients) →
      ∃ w m, (u, w, m) ∈ (MessageHandler.handle_send_message st ws (some text)).2.2) ∧
    (∃ w m, (sender, w, m) ∈ (MessageHandler.handle_send_message st ws (some text)).2.2) ∧
    (∀ u w m, (u, w, m) ∈ (MessageHandler.handle_send_message st ws (some text)).2.2 →
      ∀ name r, alookup name st.rooms = some r → u ∈ r.clients → name = c.currentRoom) := by
  obtain ⟨hdef, hsess, hmem⟩ := hinv
  have hrex := hsess sender c hc
  obtain ⟨r₀, hro⟩ : ∃ r₀, alookup c.currentRoom st.rooms = some r₀ :=
    Option.isSome_iff_exists.mp hrex
  · have hgr : st.get_client_room sender = some c.currentRoom := by
      unfold ServerState.get_client_room
      rw [hc]
      rfl
    have hred : MessageHandler.handle_send_message st ws (some text) =
        (st, ProtocolMessage.create_success "Message envoyé" [],
         MessageHandler.broadcast_to_room st c.currentRoom
          ⟨"receive_message",
           [("room_name", JVal.s c.currentRoom), ("username", JVal.s sender),
            ("message", JVal.s text)]⟩ none) := by
      simp [MessageHandler.handle_send_message, hws, hsne, htne, hgr, hrne]
    have hsends : (MessageHandler.handle_send_message st ws (some text)).2.2 =
        MessageHandler.broadcast_to_room st c.currentRoom
          ⟨"receive_message",
           [("room_name", JVal.s c.currentRoom), ("username", JVal.s sender),
            ("message", JVal.s text)]⟩ none := by
      rw [hred]
    have hsnap : (st.get_room_clients c.currentRoom).2 = r₀.clients := by
      simp [ServerState.get_room_clients, hro]
    have hwsof : ∀ u cu, alookup u st.clients = some cu →
        st.get_client_websocket u = some cu.websocket := by
      intro u cu hcu
      unfold ServerState.get_client_websocket
      rw [hcu]
      rfl
    refine ⟨by rw [hred], by rw [hred], ?_, ?_, ?_, ?_⟩
    · intro u w m
      rw [hsends, mem_broadcast_to_room, hsnap]
      constructor
      · rintro ⟨hu, _, hw, rfl⟩
        exact ⟨⟨r₀, hro, hu⟩, hw, rfl⟩
      · rintro ⟨⟨r, hr, hu⟩, hw, rfl⟩
        rw [hro] at hr
        cases hr
        exact ⟨hu, by simp, hw, rfl⟩
    · rintro u ⟨r, hr, hu⟩
      rw [hro] at hr
      cases hr
      obtain ⟨cu, hcu, hcur⟩ := (hmem c.currentRoom r₀ hro u).mp hu
      refine ⟨cu.websocket,
        ⟨"receive_message",
         [("room_name", JVal.s c.currentRoom), ("username", JVal.s sender),
          ("message", JVal.s text)]⟩, ?_⟩
      rw [hsends, mem_broadcast_to_room, hsnap]
      exact ⟨hu, by simp, hwsof u cu hcu, rfl⟩
    · have hself : sender ∈ r₀.clients := (hmem _ r₀ hro sender).mpr ⟨c, hc, rfl⟩
      refine ⟨c.websocket,
        ⟨"receive_message",
         [("room_name", JVal.s c.currentRoom), ("username", JVal.s sender),
          ("message", JVal.s text)]⟩, ?_⟩
      rw [hsends, mem_broadcast_to_room, hsnap]
      exact ⟨hself, by simp, hwsof sender c hc, rfl⟩
    · intro u w m hm name r hr hu
      rw [hsends, mem_broadcast_to_room, hsnap] at hm
      obtain ⟨hu₀, -, -, -⟩ := hm
      obtain ⟨cu, hcu, hcur⟩ := (hmem c.currentRoom r₀ hro u).mp hu₀
      obtain ⟨cu', hcu', hcur'⟩ := (hmem name r hr u).mp hu
      rw [hcu] at hcu'
      cases hcu'
      rw [← hcur']
      exact hcur

/-- Witness for the amended C6 at a concrete reachable state. -/
theorem handle_send_message_spec_witness :
    (MessageHandler.handle_send_message (ServerState.startState.add_client 1 "alice").1 1
      (some "hi")).1 = (ServerState.startState.add_client 1 "alice").1 :=
  (handle_send_message_spec (ServerState.startState.add_client 1 "alice").1 1 "alice" "hi"
    (reachable_stateInv (Reachable.add_client 1 "alice" Reachable.start))
    (by decide) (by decide) ⟨1, "alice", "default"⟩ (by decide) (by decide) (by decide)).1

/-- Claim C6 counterexample: "bob" (websocket 2) is the registered sender,
alone in the default room; his own `send_message` is delivered back to him —
the sender is not excluded by `src/src/handlers.py`. -/
theorem send_message_includes_sender_counterexample :
    ServerState.get_username_from_websocket
      { rooms := [("default", ⟨"default", {"bob"}⟩)],
        clients := [("bob", ⟨2, "bob", "default"⟩)],
        websocket_to_username := [(2, "bob")] } 2 = some "bob" ∧
    (MessageHandler.handle_send_message
      { rooms := [("default", ⟨"default", {"bob"}⟩)],
        clients := [("bob", ⟨2, "bob", "default"⟩)],
        websocket_to_username := [(2, "bob")] } 2 (some "hi")).2.2 =
      {("bob", 2, ⟨"receive_message",
        [("room_name", JVal.s "default"), ("username", JVal.s "bob"),
         ("message", JVal.s "hi")]⟩)} := by
  constructor
  · rfl
  · rfl

theorem alookup_filter_keys_not_mem {α β : Type} [DecidableEq α] (D : Finset α)
    (l : List (α × β)) (k : α) (h : k ∈ D) :
    alookup k (l.filter (fun p => decide (p.1 ∉ D))) = none := by
  induction l with
  | nil => rfl
  | cons p rest ih =>
    obtain ⟨k', v⟩ := p
    by_cases hk : k' ∈ D
    · have hdec : decide (k' ∉ D) = false := by simp [hk]
      simp only [List.filter_cons, hdec, Bool.false_eq_true, if_false]
      exact ih
    · have hdec : decide (k' ∉ D) = true := by simp [hk]
      have hne : k' ≠ k := fun hkk => hk (hkk ▸ h)
      simp only [List.filter_cons, hdec, if_true]
      simp only [alookup, hne, if_false]
      exact ih

namespace Server

/-- A connected client of `server.py` (`Client` dataclass there): bound
websocket, username, current room (default "general"). -/
structure Client where
  websocket : Nat
  username : String
  current_room : String
deriving DecidableEq

/-- A room of `server.py`: its member set holds websockets directly. -/
structure Room where
  name : String
  clients : Finset Nat
deriving DecidableEq

/-- The `ServerState` of `server.py`: clients keyed by websocket, rooms by
name. -/
structure ServerState where
  clients : List (Nat × Client)
  rooms : List (String × Room)
deriving DecidableEq

/-- Embeds `MessageHandler.broadcast` of `server.py`.  `openWs` is the transport's
`ws.open` flag.  Iterating a copy of the room's member set, the excluded
websocket is skipped; members whose connection is open are sent the message
(the parallel `gather` uses `return_exceptions=True`, so even a failing send
surfaces nothing); members found closed are collected as `dead_clients` and,
in a follow-up step under the lock, removed from the room's member set and
popped from the global client dict.  No further message is emitted. -/
def MessageHandler.broadcast (openWs : Nat → Bool) (st : ServerState) (room_name : String)
    (message : ProtocolMessage) (exclude_ws : Option Nat) :
    ServerState × Multiset (Nat × ProtocolMessage) :=
  match alookup room_name st.rooms with
  | none => (st, ∅)
  | some room =>
    let targets := room.clients.filter (fun ws => some ws ≠ exclude_ws)
    let tasks := (targets.filter (fun ws => openWs ws)).val.map (fun ws => (ws, message))
    let dead_clients := targets.filter (fun ws => ¬ openWs ws)
    if dead_clients = ∅ then (st, tasks)
    else
      ({ clients := st.clients.filter (fun p => decide (p.1 ∉ dead_clients)),
         rooms := aupdate room_name
           (fun r => { r with clients := r.clients \ dead_clients }) st.rooms },
       tasks)

end Server

/-- Claim C5 counterexample: "general" holds websockets 1 (open) and 2
(closed).  Broadcasting a chat message removes the dead client 2 from the
registry and the room — but the complete output of the fan-out and cleanup
contains exactly one send, the chat payload to websocket 1: no departure
notice is ever broadcast, and nothing goes through `unregister_client`. -/
theorem broadcast_no_departure_notice_counterexample :
    Server.MessageHandler.broadcast (fun w => w == 1)
      { clients := [(1, ⟨1, "alice", "general"⟩), (2, ⟨2, "bob", "general"⟩)],
        rooms := [("general", ⟨"general", {1, 2}⟩)] }
      "general"
      ⟨"receive_message",
       [("room_name", JVal.s "general"), ("username", JVal.s "alice"),
        ("message", JVal.s "hi")]⟩ none =
    ({ clients := [(1, ⟨1, "alice", "general"⟩)],
       rooms := [("general", ⟨"general", {1}⟩)] },
     {(1, ⟨"receive_message",
       [("room_name", JVal.s "general"), ("username", JVal.s "alice"),
        ("message", JVal.s "hi")]⟩)}) := by
  decide

/-- Claim C5 as amended: when delivery to some members of a broadcast fails
(their connection is closed), nothing is surfaced to the sender and the
open members still receive the message; after the fan-out every failed
recipient is removed from the client registry and from the room's member
set — but the cleanup is inlined (not the normal disconnect path) and emits
no departure notice: every message the broadcast sends is the payload
itself. -/
theorem broadcast_failed_delivery_cleanup (openWs : Nat → Bool) (st : Server.ServerState)
    (room_name : String) (message : ProtocolMessage) (exclude_ws : Option Nat)
    (room : Server.Room) (hr : alookup room_name st.rooms = some room) :
    (∀ p ∈ (Server.MessageHandler.broadcast openWs st room_name message exclude_ws).2,
      p.2 = message) ∧
    (∀ ws ∈ room.clients, some ws ≠ exclude_ws → openWs ws = true →
      (ws, message) ∈
        (Server.MessageHandler.broadcast openWs st room_name message exclude_ws).2) ∧
    (∀ ws ∈ room.clients, some ws ≠ exclude_ws → openWs ws = false →
      alookup ws
        (Server.MessageHandler.broadcast openWs st room_name message exclude_ws).1.clients =
        none ∧
      ∀ r', alookup room_name
          (Server.MessageHandler.broadcast openWs st room_name message exclude_ws).1.rooms =
          some r' → ws ∉ r'.clients) := by
  have hsnd : (Server.MessageHandler.broadcast openWs st room_name message exclude_ws).2 =
      (((room.clients.filter (fun ws => some ws ≠ exclude_ws)).filter
        (fun ws => openWs ws)).val.map (fun ws => (ws, message))) := by
    simp only [Server.MessageHandler.broadcast, hr]
    split <;> rfl
  refine ⟨?_, ?_, ?_⟩
  · intro p hp
    rw [hsnd] at hp
    obtain ⟨ws, -, rfl⟩ := Multiset.mem_map.mp hp
    rfl
  · intro ws hws hne hopen
    rw [hsnd]
    refine Multiset.mem_map.mpr ⟨ws, ?_, rfl⟩
    rw [Finset.mem_val]
    simp [Finset.mem_filter, hws, hne, hopen]
  · obtain ⟨D, hDdef⟩ : ∃ D : Finset Nat,
        D = (room.clients.filter (fun ws => some ws ≠ exclude_ws)).filter
          (fun ws => ¬ openWs ws) := ⟨_, rfl⟩
    intro ws hws hne hopen
    have hwsD : ws ∈ D := by
      rw [hDdef]
      simp [Finset.mem_filter, hws, hne, hopen]
    have hDne : D ≠ ∅ := Finset.ne_empty_of_mem hwsD
    have hst : (Server.MessageHandler.broadcast openWs st room_name message exclude_ws).1 =
        { clients := st.clients.filter (fun p => decide (p.1 ∉ D)),
          rooms := aupdate room_name
            (fun r => { r with clients := r.clients \ D }) st.rooms } := by
      subst hDdef
      simp only [Server.MessageHandler.broadcast, hr]
      rw [if_neg hDne]
    rw [hst]
    constructor
    · exact alookup_filter_keys_not_mem D st.clients ws hwsD
    · intro r' hr'
      have hr'' : alookup room_name (aupdate room_name
          (fun r => { r with clients := r.clients \ D }) st.rooms) = some r' := hr'
      rw [alookup_aupdate_self, hr] at hr''
      simp only [Option.map_some', Option.some.injEq] at hr''
      rw [← hr'']
      simp [Finset.mem_sdiff, hwsD]

/-- Witness for the amended C5: the closed websocket 2 is gone from the
registry after the broadcast. -/
theorem broadcast_failed_delivery_cleanup_witness :
    alookup 2 (Server.MessageHandler.broadcast (fun w => w == 1)
      { clients := [(1, ⟨1, "alice", "general"⟩), (2, ⟨2, "bob", "general"⟩)],
        rooms := [("general", ⟨"general", {1, 2}⟩)] }
      "general"
      ⟨"receive_message",
       [("room_name", JVal.s "general"), ("username", JVal.s "alice"),
        ("message", JVal.s "hi")]⟩ none).1.clients = none :=
  ((broadcast_failed_delivery_cleanup (fun w => w == 1)
      { clients := [(1, ⟨1, "alice", "general"⟩), (2, ⟨2, "bob", "general"⟩)],
        rooms := [("general", ⟨"general", {1, 2}⟩)] }
      "general"
      ⟨"receive_message",
       [("room_name", JVal.s "general"), ("username", JVal.s "alice"),
        ("message", JVal.s "hi")]⟩ none ⟨"general", {1, 2}⟩ (by decide)).2.2
    2 (by decide) (by decide) (by decide)).1
